import Mathlib

/-!
Verification of the bcrypto native binding layer (src/bcrypto.cc) of this
repository, together with a model of the scrypt key-derivation engine that
the binding calls into.  The binding file marshals arguments, allocates the
output buffer, calls the primitive (bcrypto_scrypt, bcrypto_pbkdf2,
bcrypto_encipher, bcrypto_decipher, bcrypto_random) and either throws an
error or returns the result buffer.  The primitives themselves live in
companion files that are not part of this excerpt; where a claim depends on
them they are modelled from the specification (RFC 7914 scrypt with
PBKDF2-HMAC-SHA256 at both ends), and such definitions say so in their doc
comment.

Bytes are modelled as natural numbers below 256, byte buffers as lists of
such numbers, and 32-bit machine words as natural numbers reduced modulo
2^32 at every arithmetic step.
-/

namespace Bcrypto

/-- The 32-bit modulus. -/
def M32 : Nat := 4294967296

/-- Left rotation of a 32-bit word `a` (assumed `< 2^32`) by `b` places. -/
def rotl32 (a b : Nat) : Nat := ((a <<< b) % M32) ||| (a >>> (32 - b))

/-- Right rotation of a 32-bit word `a` (assumed `< 2^32`) by `b` places. -/
def rotr32 (a b : Nat) : Nat := ((a <<< (32 - b)) % M32) ||| (a >>> b)

/-- Bytewise XOR of two buffers (truncates to the shorter one). -/
def xorBytes (a b : List Nat) : List Nat := a.zipWith (· ^^^ ·) b

/-- Big-endian 4-byte encoding of a 32-bit word. -/
def be4 (w : Nat) : List Nat :=
  [w / 16777216 % 256, w / 65536 % 256, w / 256 % 256, w % 256]

/-- Big-endian 8-byte encoding of a 64-bit value. -/
def be8 (n : Nat) : List Nat :=
  [n / 72057594037927936 % 256, n / 281474976710656 % 256,
   n / 1099511627776 % 256, n / 4294967296 % 256,
   n / 16777216 % 256, n / 65536 % 256, n / 256 % 256, n % 256]

/-- Little-endian 4-byte encoding of a 32-bit word. -/
def le4 (w : Nat) : List Nat :=
  [w % 256, w / 256 % 256, w / 65536 % 256, w / 16777216 % 256]

/-- Bytes to big-endian 32-bit words (groups of four, remainder dropped). -/
def bytesToWordsBE : List Nat → List Nat
  | b0 :: b1 :: b2 :: b3 :: rest =>
      (((b0 * 256 + b1) * 256 + b2) * 256 + b3) :: bytesToWordsBE rest
  | _ => []

/-- Bytes to little-endian 32-bit words (groups of four, remainder dropped). -/
def bytesToWordsLE : List Nat → List Nat
  | b0 :: b1 :: b2 :: b3 :: rest =>
      (b0 + 256 * (b1 + 256 * (b2 + 256 * b3))) :: bytesToWordsLE rest
  | _ => []

/-- Little-endian 32-bit words to bytes. -/
def wordsToBytesLE (ws : List Nat) : List Nat := (ws.map le4).flatten

/-- Split a list into chunks of `size` elements; `fuel` bounds the number of
chunks produced. -/
def chunks (size : Nat) : Nat → List α → List (List α)
  | 0, _ => []
  | _, [] => []
  | f + 1, xs => xs.take size :: chunks size f (xs.drop size)

/-! SHA-256, modelled from the spec: the PRF dependency of the scrypt engine
is PBKDF2-HMAC-SHA256 (spec section 1 and section 4.4); the hash itself is an
external collaborator whose implementation is not part of this excerpt, so it
is given here by its standard (FIPS 180-4) definition. -/

/-- Round constants of SHA-256 (FIPS 180-4), written in decimal. -/
def K256 : List Nat :=
  [1116352408, 1899447441, 3049323471, 3921009573, 961987163,
   1508970993, 2453635748, 2870763221, 3624381080, 310598401,
   607225278, 1426881987, 1925078388, 2162078206, 2614888103,
   3248222580, 3835390401, 4022224774, 264347078, 604807628,
   770255983, 1249150122, 1555081692, 1996064986, 2554220882,
   2821834349, 2952996808, 3210313671, 3336571891, 3584528711,
   113926993, 338241895, 666307205, 773529912, 1294757372,
   1396182291, 1695183700, 1986661051, 2177026350, 2456956037,
   2730485921, 2820302411, 3259730800, 3345764771, 3516065817,
   3600352804, 4094571909, 275423344, 430227734, 506948616,
   659060556, 883997877, 958139571, 1322822218, 1537002063,
   1747873779, 1955562222, 2024104815, 2227730452, 2361852424,
   2428436474, 2756734187, 3204031479, 3329325298]

/-- Working state of the SHA-256 compression function: eight 32-bit words. -/
structure SHAState where
  a : Nat
  b : Nat
  c : Nat
  d : Nat
  e : Nat
  f : Nat
  g : Nat
  h : Nat

/-- Initial hash value of SHA-256 (FIPS 180-4), written in decimal. -/
def shaH0 : SHAState :=
  ⟨1779033703, 3144134277, 1013904242, 2773480762,
   1359893119, 2600822924, 528734635, 1541459225⟩

/-- Sliding window of the previous sixteen words of the SHA-256 message
schedule. -/
structure SchedWindow where
  w0 : Nat
  w1 : Nat
  w2 : Nat
  w3 : Nat
  w4 : Nat
  w5 : Nat
  w6 : Nat
  w7 : Nat
  w8 : Nat
  w9 : Nat
  w10 : Nat
  w11 : Nat
  w12 : Nat
  w13 : Nat
  w14 : Nat
  w15 : Nat

/-- Produce the next `fuel` words of the SHA-256 message schedule from the
sliding window of the previous sixteen, by the recurrence
w[i] = w[i-16] + σ0(w[i-15]) + w[i-7] + σ1(w[i-2]). -/
def shaExtend : Nat → SchedWindow → List Nat
  | 0, _ => []
  | f + 1, w =>
    let s0 := rotr32 w.w1 7 ^^^ rotr32 w.w1 18 ^^^ (w.w1 >>> 3)
    let s1 := rotr32 w.w14 17 ^^^ rotr32 w.w14 19 ^^^ (w.w14 >>> 10)
    let w16 := (w.w0 + s0 + w.w9 + s1) % M32
    w16 :: shaExtend f ⟨w.w1, w.w2, w.w3, w.w4, w.w5, w.w6, w.w7, w.w8,
      w.w9, w.w10, w.w11, w.w12, w.w13, w.w14, w.w15, w16⟩

/-- Extend a 16-word message block to the full 64-word schedule. -/
def shaSchedule (ws : List Nat) (fuel : Nat) : List Nat :=
  match ws with
  | [w0, w1, w2, w3, w4, w5, w6, w7, w8, w9, w10, w11, w12, w13, w14, w15] =>
    ws ++ shaExtend fuel ⟨w0, w1, w2, w3, w4, w5, w6, w7, w8, w9, w10,
      w11, w12, w13, w14, w15⟩
  | _ => ws

/-- One round of the SHA-256 compression function. -/
def shaRound (st : SHAState) (kw : Nat × Nat) : SHAState :=
  let s1 := rotr32 st.e 6 ^^^ rotr32 st.e 11 ^^^ rotr32 st.e 25
  let ch := (st.e &&& st.f) ^^^ ((st.e ^^^ 4294967295) &&& st.g)
  let t1 := (st.h + s1 + ch + kw.1 + kw.2) % M32
  let s0 := rotr32 st.a 2 ^^^ rotr32 st.a 13 ^^^ rotr32 st.a 22
  let maj := (st.a &&& st.b) ^^^ (st.a &&& st.c) ^^^ (st.b &&& st.c)
  let t2 := (s0 + maj) % M32
  ⟨(t1 + t2) % M32, st.a, st.b, st.c, (st.d + t1) % M32, st.e, st.f, st.g⟩

/-- Compress one 16-word message block into the running hash state. -/
def shaCompress (H : SHAState) (block : List Nat) : SHAState :=
  let ws := shaSchedule block 48
  let st := (K256.zip ws).foldl shaRound H
  ⟨(H.a + st.a) % M32, (H.b + st.b) % M32, (H.c + st.c) % M32,
   (H.d + st.d) % M32, (H.e + st.e) % M32, (H.f + st.f) % M32,
   (H.g + st.g) % M32, (H.h + st.h) % M32⟩

/-- Merkle–Damgård padding of SHA-256: a 0x80 byte, zeros to 56 mod 64, and
the 64-bit big-endian bit length. -/
def shaPad (msg : List Nat) : List Nat :=
  msg ++ 128 :: List.replicate ((119 - msg.length % 64) % 64) 0
      ++ be8 (8 * msg.length)

/-- Big-endian serialisation of the final hash state. -/
def SHAState.toBytes (s : SHAState) : List Nat :=
  be4 s.a ++ be4 s.b ++ be4 s.c ++ be4 s.d ++ be4 s.e ++ be4 s.f
    ++ be4 s.g ++ be4 s.h

/-- SHA-256 of a byte sequence. -/
def sha256 (msg : List Nat) : List Nat :=
  let padded := shaPad msg
  let blocks := (chunks 64 (padded.length / 64) padded).map bytesToWordsBE
  (blocks.foldl shaCompress shaH0).toBytes

/-! HMAC-SHA256 and PBKDF2, modelled from the spec: the PRF dependency
contract of section 6, instantiated as PBKDF2-HMAC-SHA256 per section 1;
the implementation (bcrypto_pbkdf2 in pbkdf2/pbkdf2.h) is not part of this
excerpt, so it is given by the standard RFC 2104 / RFC 8018 definitions. -/

/-- HMAC-SHA256 of a message under a key. -/
def hmac_sha256 (key msg : List Nat) : List Nat :=
  let key0 := if 64 < key.length then sha256 key else key
  let kpad := key0 ++ List.replicate (64 - key0.length) 0
  let ipad := kpad.map (· ^^^ 0x36)
  let opad := kpad.map (· ^^^ 0x5c)
  sha256 (opad ++ sha256 (ipad ++ msg))

/-- Iterate the HMAC chain of PBKDF2, XOR-accumulating into the block. -/
def pbkdf2Chain (P : List Nat) : Nat → List Nat → List Nat → List Nat
  | 0, _, T => T
  | k + 1, U, T =>
    let U2 := hmac_sha256 P U
    pbkdf2Chain P k U2 (xorBytes T U2)

/-- Block `i` of PBKDF2-HMAC-SHA256 with iteration count `c`. -/
def pbkdf2Block (P S : List Nat) (c i : Nat) : List Nat :=
  let U1 := hmac_sha256 P (S ++ be4 i)
  pbkdf2Chain P (c - 1) U1 U1

/-- Concatenation of PBKDF2 blocks `i`, `i+1`, ... (`count` of them). -/
def pbkdf2Blocks (P S : List Nat) (c : Nat) : Nat → Nat → List Nat
  | 0, _ => []
  | k + 1, i => pbkdf2Block P S c i ++ pbkdf2Blocks P S c k (i + 1)

/-- PBKDF2-HMAC-SHA256: derive `keylen` bytes from password `P` and salt `S`
with `c` iterations. -/
def pbkdf2_hmac_sha256 (P S : List Nat) (c keylen : Nat) : List Nat :=
  (pbkdf2Blocks P S c ((keylen + 31) / 32) 1).take keylen

/-! The scrypt engine, modelled from the spec: the implementation
(bcrypto_scrypt in scrypt/scrypt.h) is not part of this excerpt; sections
4.1-4.4 specify it as RFC 7914 scrypt, reconstructed here.  A 64-byte block
is sixteen little-endian 32-bit words; a lane is a list of `2r` such
blocks. -/

/-- XOR two blocks word by word. -/
def xorWords (a b : List Nat) : List Nat := a.zipWith (· ^^^ ·) b

/-- Salsa20 quarter-round pattern applied inside a double round: each line is
x[b] ^= R(x[a]+x[d], 7) and so on, per the RFC 7914 reference code. -/
def doubleround (ws : List Nat) : List Nat :=
  match ws with
  | [x0, x1, x2, x3, x4, x5, x6, x7, x8, x9, x10, x11, x12, x13, x14, x15] =>
    let x4 := x4 ^^^ rotl32 ((x0 + x12) % M32) 7
    let x8 := x8 ^^^ rotl32 ((x4 + x0) % M32) 9
    let x12 := x12 ^^^ rotl32 ((x8 + x4) % M32) 13
    let x0 := x0 ^^^ rotl32 ((x12 + x8) % M32) 18
    let x9 := x9 ^^^ rotl32 ((x5 + x1) % M32) 7
    let x13 := x13 ^^^ rotl32 ((x9 + x5) % M32) 9
    let x1 := x1 ^^^ rotl32 ((x13 + x9) % M32) 13
    let x5 := x5 ^^^ rotl32 ((x1 + x13) % M32) 18
    let x14 := x14 ^^^ rotl32 ((x10 + x6) % M32) 7
    let x2 := x2 ^^^ rotl32 ((x14 + x10) % M32) 9
    let x6 := x6 ^^^ rotl32 ((x2 + x14) % M32) 13
    let x10 := x10 ^^^ rotl32 ((x6 + x2) % M32) 18
    let x3 := x3 ^^^ rotl32 ((x15 + x11) % M32) 7
    let x7 := x7 ^^^ rotl32 ((x3 + x15) % M32) 9
    let x11 := x11 ^^^ rotl32 ((x7 + x3) % M32) 13
    let x15 := x15 ^^^ rotl32 ((x11 + x7) % M32) 18
    let x1 := x1 ^^^ rotl32 ((x0 + x3) % M32) 7
    let x2 := x2 ^^^ rotl32 ((x1 + x0) % M32) 9
    let x3 := x3 ^^^ rotl32 ((x2 + x1) % M32) 13
    let x0 := x0 ^^^ rotl32 ((x3 + x2) % M32) 18
    let x6 := x6 ^^^ rotl32 ((x5 + x4) % M32) 7
    let x7 := x7 ^^^ rotl32 ((x6 + x5) % M32) 9
    let x4 := x4 ^^^ rotl32 ((x7 + x6) % M32) 13
    let x5 := x5 ^^^ rotl32 ((x4 + x7) % M32) 18
    let x11 := x11 ^^^ rotl32 ((x10 + x9) % M32) 7
    let x8 := x8 ^^^ rotl32 ((x11 + x10) % M32) 9
    let x9 := x9 ^^^ rotl32 ((x8 + x11) % M32) 13
    let x10 := x10 ^^^ rotl32 ((x9 + x8) % M32) 18
    let x12 := x12 ^^^ rotl32 ((x15 + x14) % M32) 7
    let x13 := x13 ^^^ rotl32 ((x12 + x15) % M32) 9
    let x14 := x14 ^^^ rotl32 ((x13 + x12) % M32) 13
    let x15 := x15 ^^^ rotl32 ((x14 + x13) % M32) 18
    [x0, x1, x2, x3, x4, x5, x6, x7, x8, x9, x10, x11, x12, x13, x14, x15]
  | _ => ws

/-- Salsa20/8 core: four double rounds with the feed-forward addition. -/
def salsa20_8 (B : List Nat) : List Nat :=
  (doubleround (doubleround (doubleround (doubleround B)))).zipWith
    (fun a b => (a + b) % M32) B

/-- XOR-chain the running block through the lane with the core mixer,
collecting the intermediate blocks in order. -/
def blockMixChain (X : List Nat) : List (List Nat) → List (List Nat)
  | [] => []
  | B :: rest =>
    let X2 := salsa20_8 (xorWords X B)
    X2 :: blockMixChain X2 rest

/-- Split a list into its even-indexed and odd-indexed elements. -/
def deinterleave : List α → List α × List α
  | [] => ([], [])
  | [a] => ([a], [])
  | a :: b :: rest =>
    let (e, o) := deinterleave rest
    (a :: e, b :: o)

/-- BlockMix of RFC 7914: chain from the last block, then write even-indexed
results first and odd-indexed results second. -/
def blockMix (Bs : List (List Nat)) : List (List Nat) :=
  let Y := blockMixChain (Bs.getLastD []) Bs
  (deinterleave Y).1 ++ (deinterleave Y).2

/-- Fill phase of SMix: record the lane state before each of `n` BlockMix
steps; returns the scratch array in order and the final state. -/
def smixFill (X : List (List Nat)) : Nat → List (List (List Nat)) × List (List Nat)
  | 0 => ([], X)
  | n + 1 =>
    let (V, X2) := smixFill (blockMix X) n
    (X :: V, X2)

/-- Integerify of RFC 7914: the last block of the lane read as one
little-endian integer. -/
def integerify (Bs : List (List Nat)) : Nat :=
  (Bs.getLastD []).foldr (fun w acc => acc * M32 + w) 0

/-- Mix phase of SMix: `n` data-dependent scratch lookups, each XORed into
the lane and mixed forward. -/
def smixMix (N : Nat) (V : List (List (List Nat))) : Nat → List (List Nat) → List (List Nat)
  | 0, X => X
  | n + 1, X =>
    let j := integerify X % N
    smixMix N V n (blockMix ((X.zipWith xorWords) (V.getD j [])))

/-- SMix (ROMix of RFC 7914) on one lane of `2r` blocks. -/
def smix (N : Nat) (X : List (List Nat)) : List (List Nat) :=
  let (V, X2) := smixFill X N
  smixMix N V N X2

/-- Run SMix over one 128·r-byte lane given as bytes. -/
def scryptLane (N r : Nat) (lane : List Nat) : List Nat :=
  wordsToBytesLE ((smix N (chunks 16 (2 * r) (bytesToWordsLE lane))).flatten)

/-- Modelled from the spec: the scrypt algorithm of RFC 7914 (spec section
4.4) — PBKDF2 expansion, SMix on each of the `p` lanes, PBKDF2 compression
with the mixed buffer as salt. -/
def scryptRFC (pass salt : List Nat) (N r p keylen : Nat) : List Nat :=
  let B := pbkdf2_hmac_sha256 pass salt 1 (p * 128 * r)
  let B2 := ((chunks (128 * r) p B).map (scryptLane N r)).flatten
  pbkdf2_hmac_sha256 pass B2 1 keylen

/-! Binding layer, translated from src/bcrypto.cc.  Buffer allocations the
binding (or the primitive it calls) performs are recorded as an event
trace, in execution order.  External outcomes the excerpt cannot decide
(whether a malloc succeeds, whether the entropy source delivers bytes,
what the cipher primitive produces) are passed in as parameters. -/

/-- Buffer allocations observable in a call: the output key buffer the
binding mallocs, and the scratch buffer of the scrypt engine. -/
inductive AllocEvent where
  | key : Nat → AllocEvent
  | scratch : Nat → AllocEvent
deriving DecidableEq

/-- Parameter validation of the scrypt engine, per the section 3 invariants:
N a power of two greater than one, r and p positive, r·p below 2^30. -/
def scrypt_params_valid (N r p : Nat) : Bool :=
  decide (1 < N) && (N &&& (N - 1) == 0) && decide (0 < r) && decide (0 < p)
    && decide (r * p < 2 ^ 30)

/-- Modelled from the spec: bcrypto_scrypt (scrypt/scrypt.h, implementation
not in this excerpt).  Per sections 4.4 and 7 it validates the parameters
first and fails before any allocation on violation; with valid parameters it
allocates the 128·r·N-byte scratch array (`scratchOk` says whether that
allocation succeeds) and computes the RFC 7914 key.  Returns the optional
key together with the allocations performed. -/
def bcrypto_scrypt (pass salt : List Nat) (N r p keylen : Nat)
    (scratchOk : Bool) : Option (List Nat) × List AllocEvent :=
  if scrypt_params_valid N r p then
    if scratchOk then
      (some (scryptRFC pass salt N r p keylen), [AllocEvent.scratch (128 * r * N)])
    else (none, [])
  else (none, [])

/-- The scrypt binding (src/bcrypto.cc lines 152-199): after marshalling it
mallocs the keylen-byte output buffer (`keyAllocOk` says whether that
succeeds), then calls bcrypto_scrypt; a false return frees the buffer and
throws "Scrypt failed.", otherwise the key buffer is returned. -/
def scrypt_binding (pass salt : List Nat) (N r p keylen : Nat)
    (keyAllocOk scratchOk : Bool) : Except String (List Nat) × List AllocEvent :=
  if keyAllocOk then
    match bcrypto_scrypt pass salt N r p keylen scratchOk with
    | (none, evs) => (Except.error "Scrypt failed.", AllocEvent.key keylen :: evs)
    | (some key, evs) => (Except.ok key, AllocEvent.key keylen :: evs)
  else (Except.error "Could not allocate key.", [])

/-- The pbkdf2 binding (src/bcrypto.cc lines 46-91): after marshalling it
mallocs the keylen-byte output buffer, then calls the PRF dependency
bcrypto_pbkdf2 (implementation not in this excerpt; `dep` is the outcome of
that call: `none` for a false return, `some key` for success).  A false
return frees the buffer and throws "PBKDF2 failed.". -/
def pbkdf2_binding (dep : Option (List Nat)) (keylen : Nat)
    (keyAllocOk : Bool) : Except String (List Nat) × List AllocEvent :=
  if keyAllocOk then
    match dep with
    | none => (Except.error "PBKDF2 failed.", [AllocEvent.key keylen])
    | some key => (Except.ok key, [AllocEvent.key keylen])
  else (Except.error "Could not allocate key.", [])

/-- The pbkdf2_async binding (src/bcrypto.cc lines 93-150): it looks the
digest up by name in the process-wide registry (EVP_get_digestbyname;
`mdFound` is whether the name resolved) and throws before queueing the
worker when the lookup fails; `ok` means the worker was queued. -/
def pbkdf2_async_binding (mdFound : Bool) : Except String Unit :=
  if mdFound then Except.ok () else Except.error "Could not allocate context."

/-- Overwrite of the sub-range [pos, pos+size) of a buffer with bytes drawn
from the random source `rand`; bytes outside the range are kept. -/
def randFillRange (buf : List Nat) (pos size : Nat) (rand : Nat → Nat) : List Nat :=
  (List.range buf.length).map fun i =>
    if pos ≤ i ∧ i < pos + size then rand (i - pos) % 256 else buf.getD i 0

/-- The random_fill binding (src/bcrypto.cc lines 367-401): `pos` and `size`
are the marshalled uint32 arguments; the call rejects any of length, pos,
size with bit 31 set ("Invalid range."), then rejects pos + size (32-bit
sum) beyond the buffer length ("Size exceeds length."), then asks the
entropy source (`entropyOk` is whether bcrypto_random succeeds) to fill
data[pos..pos+size).  Returns the outcome and the resulting buffer
contents. -/
def random_fill (buf : List Nat) (pos size : Nat) (entropyOk : Bool)
    (rand : Nat → Nat) : Except String Unit × List Nat :=
  if buf.length.testBit 31 || pos.testBit 31 || size.testBit 31 then
    (Except.error "Invalid range.", buf)
  else if decide (buf.length < (pos + size) % 2 ^ 32) then
    (Except.error "Size exceeds length.", buf)
  else if entropyOk then (Except.ok (), randFillRange buf pos size rand)
  else (Except.error "Could not get random bytes.", buf)

/-- Events observable in a cipher binding call: the output buffer malloc and
the run of the cipher primitive. -/
inductive CipherEvent where
  | allocOut : CipherEvent
  | runCipher : CipherEvent
deriving DecidableEq

/-- The encipher binding (src/bcrypto.cc lines 273-318): it checks the key
buffer is exactly 32 bytes and the IV buffer exactly 16, then mallocs the
output (`outAllocOk`) and calls bcrypto_encipher (implementation not in this
excerpt; `cipher` is its outcome on the given data, key and IV). -/
def encipher_binding (cipher : List Nat → List Nat → List Nat → Option (List Nat))
    (data key iv : List Nat) (outAllocOk : Bool) :
    Except String (List Nat) × List CipherEvent :=
  if key.length ≠ 32 then (Except.error "Bad key size.", [])
  else if iv.length ≠ 16 then (Except.error "Bad IV size.", [])
  else if outAllocOk then
    match cipher data key iv with
    | none => (Except.error "Encipher failed.", [CipherEvent.allocOut, CipherEvent.runCipher])
    | some out => (Except.ok out, [CipherEvent.allocOut, CipherEvent.runCipher])
  else (Except.error "Could not allocate ciphertext.", [])

/-- The decipher binding (src/bcrypto.cc lines 320-365): identical guard
structure to encipher, calling bcrypto_decipher. -/
def decipher_binding (cipher : List Nat → List Nat → List Nat → Option (List Nat))
    (data key iv : List Nat) (outAllocOk : Bool) :
    Except String (List Nat) × List CipherEvent :=
  if key.length ≠ 32 then (Except.error "Bad key size.", [])
  else if iv.length ≠ 16 then (Except.error "Bad IV size.", [])
  else if outAllocOk then
    match cipher data key iv with
    | none => (Except.error "Decipher failed.", [CipherEvent.allocOut, CipherEvent.runCipher])
    | some out => (Except.ok out, [CipherEvent.allocOut, CipherEvent.runCipher])
  else (Except.error "Could not allocate plaintext.", [])

/-! Length facts about the PRF chain: SHA-256 always emits 32 bytes, hence
HMAC does, hence every PBKDF2 block does, hence PBKDF2 emits exactly the
requested number of bytes and so does the scrypt driver. -/

theorem be4_length (w : Nat) : (be4 w).length = 4 := rfl

theorem sha256_length (msg : List Nat) : (sha256 msg).length = 32 := by
  simp [sha256, SHAState.toBytes, be4]

theorem hmac_sha256_length (key msg : List Nat) :
    (hmac_sha256 key msg).length = 32 := by
  simp [hmac_sha256, sha256_length]

theorem pbkdf2Chain_length (P : List Nat) (n : Nat) (U T : List Nat)
    (hT : T.length = 32) : (pbkdf2Chain P n U T).length = 32 := by
  induction n generalizing U T with
  | zero => simpa [pbkdf2Chain] using hT
  | succ k ih =>
    simp only [pbkdf2Chain]
    exact ih _ _ (by simp [xorBytes, hT, hmac_sha256_length])

theorem pbkdf2Block_length (P S : List Nat) (c i : Nat) :
    (pbkdf2Block P S c i).length = 32 := by
  simp only [pbkdf2Block]
  exact pbkdf2Chain_length _ _ _ _ (hmac_sha256_length _ _)

theorem pbkdf2Blocks_length (P S : List Nat) (c count i : Nat) :
    (pbkdf2Blocks P S c count i).length = count * 32 := by
  induction count generalizing i with
  | zero => simp [pbkdf2Blocks]
  | succ k ih =>
    simp only [pbkdf2Blocks, List.length_append, pbkdf2Block_length, ih]
    ring

theorem pbkdf2_hmac_sha256_length (P S : List Nat) (c keylen : Nat) :
    (pbkdf2_hmac_sha256 P S c keylen).length = keylen := by
  simp only [pbkdf2_hmac_sha256, List.length_take, pbkdf2Blocks_length]
  omega

theorem scryptRFC_length (pass salt : List Nat) (N r p keylen : Nat) :
    (scryptRFC pass salt N r p keylen).length = keylen := by
  simp [scryptRFC, pbkdf2_hmac_sha256_length]

/-! Helper lemmas shared by the claim theorems. -/

/-- For a 32-bit value, bit 31 is set exactly when the value is at least
2^31. -/
theorem testBit31_eq_true_iff (x : Nat) (hx : x < 2 ^ 32) :
    x.testBit 31 = true ↔ 2 ^ 31 ≤ x := by
  rw [Nat.testBit_to_div_mod, decide_eq_true_iff]
  omega

/-- Whatever key a scrypt binding call returns is the full RFC 7914 result
for its parameters. -/
theorem scrypt_binding_ok_eq (pass salt : List Nat) (N r p keylen : Nat)
    (kOk sOk : Bool) (k : List Nat)
    (h : (scrypt_binding pass salt N r p keylen kOk sOk).1 = Except.ok k) :
    k = scryptRFC pass salt N r p keylen := by
  cases kOk <;> cases sOk <;> rcases hv : scrypt_params_valid N r p <;>
    simp [scrypt_binding, bcrypto_scrypt, hv] at h
  exact h.symm

set_option maxRecDepth 100000 in
set_option maxHeartbeats 4000000 in
/-- Concrete successful scrypt binding run used by the witnesses below. -/
theorem scrypt_eval_small :
    (scrypt_binding [] [] 2 1 1 16 true true).1 =
      Except.ok [250, 118, 224, 32, 213, 77, 158, 138,
                 162, 64, 35, 198, 186, 236, 221, 70] := by
  rfl

/-- Length and element characterisation of the filled buffer. -/
theorem randFillRange_length (buf : List Nat) (pos size : Nat)
    (rand : Nat → Nat) : (randFillRange buf pos size rand).length = buf.length := by
  simp [randFillRange]

/-- Elements of the filled buffer: inside [pos, pos+size) they come from the
random source, outside they are the old bytes. -/
theorem randFillRange_getD (buf : List Nat) (pos size : Nat)
    (rand : Nat → Nat) (i : Nat) (hi : i < buf.length) :
    (randFillRange buf pos size rand).getD i 0 =
      if pos ≤ i ∧ i < pos + size then rand (i - pos) % 256 else buf.getD i 0 := by
  have hlen : i < (randFillRange buf pos size rand).length := by
    simpa [randFillRange_length] using hi
  rw [List.getD_eq_getElem _ _ hlen]
  simp [randFillRange, hi]

/-- On success, random_fill leaves the buffer equal to randFillRange of the
old buffer. -/
theorem random_fill_ok_snd (buf : List Nat) (pos size : Nat)
    (entropyOk : Bool) (rand : Nat → Nat)
    (h : (random_fill buf pos size entropyOk rand).1 = Except.ok ()) :
    (random_fill buf pos size entropyOk rand).2 =
      randFillRange buf pos size rand := by
  unfold random_fill at h ⊢
  by_cases h1 : (buf.length.testBit 31 || pos.testBit 31 || size.testBit 31) = true
  · rw [if_pos h1] at h
    exact absurd h (by simp)
  · rw [if_neg h1] at h ⊢
    by_cases h2 : decide (buf.length < (pos + size) % 2 ^ 32) = true
    · rw [if_pos h2] at h
      exact absurd h (by simp)
    · rw [if_neg h2] at h ⊢
      cases entropyOk with
      | true => rfl
      | false => exact absurd h (by simp)

/-! Claim theorems. -/

/-- C1, counterexample: a call with invalid parameters (N = 0) fails with an
error, yet an allocation — the 64-byte output key buffer — was performed
before the failure, so the claim that no buffer allocation happens before
the parameter error is false. -/
theorem scrypt_invalid_params_alloc_counterexample :
    scrypt_params_valid 0 1 1 = false ∧
    (scrypt_binding [] [] 0 1 1 64 true true).1 = Except.error "Scrypt failed." ∧
    (scrypt_binding [] [] 0 1 1 64 true true).2 = [AllocEvent.key 64] ∧
    ([AllocEvent.key 64] : List AllocEvent) ≠ [] := by
  refine ⟨by decide, rfl, rfl, by decide⟩

/-- C1, amended: a call whose parameters violate the section 3 invariants
fails with an error before the scratch buffer is allocated and before any of
the key-derivation computation executes; the binding does, however, allocate
the keylen-byte output key buffer before validation. -/
theorem scrypt_invalid_params_fail_before_scratch
    (pass salt : List Nat) (N r p keylen : Nat) (kOk sOk : Bool)
    (h : scrypt_params_valid N r p = false) :
    (∃ e, (scrypt_binding pass salt N r p keylen kOk sOk).1 = Except.error e) ∧
    ∀ sz, AllocEvent.scratch sz ∉ (scrypt_binding pass salt N r p keylen kOk sOk).2 := by
  cases kOk <;> simp [scrypt_binding, bcrypto_scrypt, h]

/-- Witness for C1 at N = 3 (not a power of two). -/
theorem scrypt_invalid_params_fail_before_scratch_witness :
    scrypt_params_valid 3 1 1 = false ∧
    ((∃ e, (scrypt_binding [] [] 3 1 1 32 true true).1 = Except.error e) ∧
      ∀ sz, AllocEvent.scratch sz ∉ (scrypt_binding [] [] 3 1 1 32 true true).2) :=
  ⟨by decide, scrypt_invalid_params_fail_before_scratch [] [] 3 1 1 32 true true (by decide)⟩

/-- C2: every scrypt binding call either returns the key of the complete
RFC 7914 computation, of exactly keylen bytes, or an explicit error; every
internal failure (invalid parameters, failed key malloc, failed scratch
allocation) surfaces as an error. -/
theorem scrypt_total_or_explicit_error
    (pass salt : List Nat) (N r p keylen : Nat) (kOk sOk : Bool) :
    (∀ k, (scrypt_binding pass salt N r p keylen kOk sOk).1 = Except.ok k →
      k = scryptRFC pass salt N r p keylen ∧ k.length = keylen) ∧
    (scrypt_params_valid N r p = false ∨ kOk = false ∨ sOk = false →
      ∃ e, (scrypt_binding pass salt N r p keylen kOk sOk).1 = Except.error e) := by
  constructor
  · intro k hk
    have := scrypt_binding_ok_eq pass salt N r p keylen kOk sOk k hk
    exact ⟨this, this ▸ scryptRFC_length pass salt N r p keylen⟩
  · intro h
    cases kOk <;> cases sOk <;> rcases hv : scrypt_params_valid N r p <;>
      simp_all [scrypt_binding, bcrypto_scrypt]

/-- Witness for C2 on a successful concrete call. -/
theorem scrypt_total_or_explicit_error_witness :
    ([250, 118, 224, 32, 213, 77, 158, 138, 162, 64, 35, 198, 186, 236, 221, 70]
        : List Nat) = scryptRFC [] [] 2 1 1 16 ∧
    ([250, 118, 224, 32, 213, 77, 158, 138, 162, 64, 35, 198, 186, 236, 221, 70]
        : List Nat).length = 16 :=
  (scrypt_total_or_explicit_error [] [] 2 1 1 16 true true).1 _ scrypt_eval_small

/-- C4: scrypt is deterministic — two binding calls on the same inputs that
both succeed return byte-for-byte identical keys, whatever the allocation
outcomes were. -/
theorem scrypt_deterministic
    (pass salt : List Nat) (N r p keylen : Nat)
    (kOk1 sOk1 kOk2 sOk2 : Bool) (k1 k2 : List Nat)
    (h1 : (scrypt_binding pass salt N r p keylen kOk1 sOk1).1 = Except.ok k1)
    (h2 : (scrypt_binding pass salt N r p keylen kOk2 sOk2).1 = Except.ok k2) :
    k1 = k2 :=
  (scrypt_binding_ok_eq pass salt N r p keylen kOk1 sOk1 k1 h1).trans
    (scrypt_binding_ok_eq pass salt N r p keylen kOk2 sOk2 k2 h2).symm

/-- Witness for C4 on two successful concrete calls. -/
theorem scrypt_deterministic_witness :
    ([250, 118, 224, 32, 213, 77, 158, 138, 162, 64, 35, 198, 186, 236, 221, 70]
        : List Nat) =
      [250, 118, 224, 32, 213, 77, 158, 138, 162, 64, 35, 198, 186, 236, 221, 70] :=
  scrypt_deterministic [] [] 2 1 1 16 true true true true _ _
    scrypt_eval_small scrypt_eval_small

/-- C5: every successful scrypt binding call returns a key buffer of exactly
the requested keylen bytes. -/
theorem scrypt_output_length
    (pass salt : List Nat) (N r p keylen : Nat) (kOk sOk : Bool) (k : List Nat)
    (h : (scrypt_binding pass salt N r p keylen kOk sOk).1 = Except.ok k) :
    k.length = keylen := by
  rw [scrypt_binding_ok_eq pass salt N r p keylen kOk sOk k h]
  exact scryptRFC_length pass salt N r p keylen

/-- Witness for C5 on a successful concrete call with keylen 16. -/
theorem scrypt_output_length_witness :
    ([250, 118, 224, 32, 213, 77, 158, 138, 162, 64, 35, 198, 186, 236, 221, 70]
        : List Nat).length = 16 :=
  scrypt_output_length [] [] 2 1 1 16 true true _ scrypt_eval_small

/-- C6: when a dependency fails, the public operation reports that failure
to the caller and returns no result value.  Three dependency-failure cases:
the PRF (bcrypto_pbkdf2 returning false) makes the pbkdf2 binding throw and
return nothing; a failed digest-name lookup makes the async binding throw
before any worker is queued; and the randomness dependency (bcrypto_random
returning false) makes random_fill report "Could not get random bytes."
whenever its range checks let the call reach the entropy source, never
returning success and leaving the buffer as it was. -/
theorem dependency_errors_reported (keylen : Nat) (buf : List Nat)
    (pos size : Nat) (rand : Nat → Nat) :
    ((pbkdf2_binding none keylen true).1 = Except.error "PBKDF2 failed." ∧
      ∀ k, (pbkdf2_binding none keylen true).1 ≠ Except.ok k) ∧
    (pbkdf2_async_binding false = Except.error "Could not allocate context." ∧
      ∀ u, pbkdf2_async_binding false ≠ Except.ok u) ∧
    (((buf.length.testBit 31 || pos.testBit 31 || size.testBit 31) = false →
        decide (buf.length < (pos + size) % 2 ^ 32) = false →
        (random_fill buf pos size false rand).1 =
          Except.error "Could not get random bytes." ∧
        (random_fill buf pos size false rand).2 = buf) ∧
      ∀ u, (random_fill buf pos size false rand).1 ≠ Except.ok u) := by
  refine ⟨by simp [pbkdf2_binding], by simp [pbkdf2_async_binding], ?_, ?_⟩
  · intro h1 h2
    unfold random_fill
    rw [if_neg (by simp only [h1]; exact Bool.false_ne_true),
        if_neg (by simp only [h2]; exact Bool.false_ne_true)]
    exact ⟨rfl, rfl⟩
  · intro u
    unfold random_fill
    by_cases h1 : (buf.length.testBit 31 || pos.testBit 31 || size.testBit 31) = true
    · rw [if_pos h1]
      simp
    · rw [if_neg h1]
      by_cases h2 : decide (buf.length < (pos + size) % 2 ^ 32) = true
      · rw [if_pos h2]
        simp
      · rw [if_neg h2]
        simp

/-- Witness for C6: a PRF failure at keylen 10, the failed digest lookup,
and an entropy-source failure on an in-range random_fill call. -/
theorem dependency_errors_reported_witness :
    (pbkdf2_binding none 10 true).1 = Except.error "PBKDF2 failed." ∧
    (pbkdf2_binding none 10 true).1 ≠ Except.ok [0] ∧
    pbkdf2_async_binding false = Except.error "Could not allocate context." ∧
    (random_fill [1, 2] 0 1 false (fun _ => 0)).1 =
      Except.error "Could not get random bytes." ∧
    (random_fill [1, 2] 0 1 false (fun _ => 0)).2 = [1, 2] ∧
    (random_fill [1, 2] 0 1 false (fun _ => 0)).1 ≠ Except.ok () :=
  ⟨(dependency_errors_reported 10 [1, 2] 0 1 (fun _ => 0)).1.1,
   (dependency_errors_reported 10 [1, 2] 0 1 (fun _ => 0)).1.2 [0],
   (dependency_errors_reported 10 [1, 2] 0 1 (fun _ => 0)).2.1.1,
   ((dependency_errors_reported 10 [1, 2] 0 1 (fun _ => 0)).2.2.1 (by decide) (by decide)).1,
   ((dependency_errors_reported 10 [1, 2] 0 1 (fun _ => 0)).2.2.1 (by decide) (by decide)).2,
   (dependency_errors_reported 10 [1, 2] 0 1 (fun _ => 0)).2.2.2 ()⟩

/-- C7: under the host's buffer-length bound (node buffers are shorter than
2^31 bytes) and with pos and size in the uint32 range the binding
marshals them into, random_fill fails exactly when the entropy source is
unavailable or the requested range [pos, pos+size) exceeds the buffer; on a
range violation the buffer is unmodified, and on success the requested
sub-range is filled from the random source. -/
theorem random_fill_error_conditions
    (buf : List Nat) (pos size : Nat) (entropyOk : Bool) (rand : Nat → Nat)
    (hlen : buf.length < 2 ^ 31) (hpos : pos < 2 ^ 32) (hsize : size < 2 ^ 32) :
    ((∃ e, (random_fill buf pos size entropyOk rand).1 = Except.error e) ↔
      entropyOk = false ∨ buf.length < pos + size) ∧
    (buf.length < pos + size → (random_fill buf pos size entropyOk rand).2 = buf) ∧
    ((random_fill buf pos size entropyOk rand).1 = Except.ok () →
      (random_fill buf pos size entropyOk rand).2 = randFillRange buf pos size rand) := by
  refine ⟨?_, ?_, random_fill_ok_snd buf pos size entropyOk rand⟩
  · unfold random_fill
    have hl : buf.length.testBit 31 = false := by
      rw [Nat.testBit_to_div_mod]
      simp only [decide_eq_false_iff_not]
      omega
    rcases Nat.lt_or_ge pos (2 ^ 31) with hp | hp
    · have hpb : pos.testBit 31 = false := by
        rw [Nat.testBit_to_div_mod]
        simp only [decide_eq_false_iff_not]
        omega
      rcases Nat.lt_or_ge size (2 ^ 31) with hs | hs
      · have hsb : size.testBit 31 = false := by
          rw [Nat.testBit_to_div_mod]
          simp only [decide_eq_false_iff_not]
          omega
        have hmod : (pos + size) % 2 ^ 32 = pos + size := Nat.mod_eq_of_lt (by omega)
        rw [hl, hpb, hsb, hmod]
        by_cases hrange : buf.length < pos + size
        · simp [hrange]
        · cases entropyOk <;> simp [hrange]
      · have hsb : size.testBit 31 = true := (testBit31_eq_true_iff size hsize).2 hs
        rw [hsb]
        simp only [Bool.or_true, Bool.true_or, if_true]
        constructor
        · intro _
          right
          omega
        · intro _
          exact ⟨"Invalid range.", rfl⟩
    · have hpb : pos.testBit 31 = true := (testBit31_eq_true_iff pos hpos).2 hp
      rw [hpb]
      simp only [Bool.or_true, Bool.true_or, if_true]
      constructor
      · intro _
        right
        omega
      · intro _
        exact ⟨"Invalid range.", rfl⟩
  · intro hrange
    unfold random_fill
    rcases Nat.lt_or_ge pos (2 ^ 31) with hp | hp
    · rcases Nat.lt_or_ge size (2 ^ 31) with hs | hs
      · have hmod : (pos + size) % 2 ^ 32 = pos + size := Nat.mod_eq_of_lt (by omega)
        rw [hmod]
        by_cases hbit : (buf.length.testBit 31 || pos.testBit 31 || size.testBit 31) = true
        · rw [if_pos hbit]
        · rw [if_neg hbit, if_pos (by simpa using hrange)]
      · have hsb : size.testBit 31 = true := (testBit31_eq_true_iff size hsize).2 hs
        rw [hsb]
        simp
    · have hpb : pos.testBit 31 = true := (testBit31_eq_true_iff pos hpos).2 hp
      rw [hpb]
      simp

/-- Witness for C7 at a concrete in-range call. -/
theorem random_fill_error_conditions_witness :
    ([1, 2, 3] : List Nat).length < 2 ^ 31 ∧ 1 < 2 ^ 32 ∧ 2 < 2 ^ 32 ∧
    (((∃ e, (random_fill [1, 2, 3] 1 2 true (fun k => 100 + k)).1 = Except.error e) ↔
        true = false ∨ ([1, 2, 3] : List Nat).length < 1 + 2) ∧
      (([1, 2, 3] : List Nat).length < 1 + 2 →
        (random_fill [1, 2, 3] 1 2 true (fun k => 100 + k)).2 = [1, 2, 3]) ∧
      ((random_fill [1, 2, 3] 1 2 true (fun k => 100 + k)).1 = Except.ok () →
        (random_fill [1, 2, 3] 1 2 true (fun k => 100 + k)).2 =
          randFillRange [1, 2, 3] 1 2 (fun k => 100 + k))) :=
  ⟨by decide, by decide, by decide,
   random_fill_error_conditions [1, 2, 3] 1 2 true (fun k => 100 + k)
     (by decide) (by decide) (by decide)⟩

/-- C8: a successful random_fill call modifies only the bytes at indices
[pos, pos+size); every byte outside that sub-range keeps its previous
value, and the buffer length is unchanged. -/
theorem random_fill_frame
    (buf : List Nat) (pos size : Nat) (entropyOk : Bool) (rand : Nat → Nat)
    (h : (random_fill buf pos size entropyOk rand).1 = Except.ok ()) :
    (random_fill buf pos size entropyOk rand).2.length = buf.length ∧
    ∀ i, i < buf.length → i < pos ∨ pos + size ≤ i →
      (random_fill buf pos size entropyOk rand).2.getD i 0 = buf.getD i 0 := by
  rw [random_fill_ok_snd buf pos size entropyOk rand h]
  refine ⟨randFillRange_length buf pos size rand, ?_⟩
  intro i hi hout
  rw [randFillRange_getD buf pos size rand i hi, if_neg (by omega)]

/-- Witness for C8: filling [5, 6, 7] at pos 1, size 1 keeps bytes 0 and
2. -/
theorem random_fill_frame_witness :
    (random_fill [5, 6, 7] 1 1 true (fun _ => 9)).2.getD 0 0 = ([5, 6, 7] : List Nat).getD 0 0 ∧
    (random_fill [5, 6, 7] 1 1 true (fun _ => 9)).2.getD 2 0 = ([5, 6, 7] : List Nat).getD 2 0 :=
  ⟨(random_fill_frame [5, 6, 7] 1 1 true (fun _ => 9) (by rfl)).2 0 (by decide)
      (Or.inl (by decide)),
   (random_fill_frame [5, 6, 7] 1 1 true (fun _ => 9) (by rfl)).2 2 (by decide)
      (Or.inr (by decide))⟩

/-- C9: with pos, size and the buffer length in the uint32 range, any of
them at or above 2^31 makes random_fill fail with "Invalid range."; and
whenever the write to the buffer is reached (the call succeeded or failed
only inside the entropy source), the 32-bit sum pos + size did not wrap and
pos + size ≤ length holds, so the written range lies inside the buffer. -/
theorem random_fill_range_safety
    (buf : List Nat) (pos size : Nat) (entropyOk : Bool) (rand : Nat → Nat)
    (hlen : buf.length < 2 ^ 32) (hpos : pos < 2 ^ 32) (hsize : size < 2 ^ 32) :
    ((2 ^ 31 ≤ buf.length ∨ 2 ^ 31 ≤ pos ∨ 2 ^ 31 ≤ size) →
      (random_fill buf pos size entropyOk rand).1 = Except.error "Invalid range.") ∧
    ((random_fill buf pos size entropyOk rand).1 = Except.ok () ∨
        (random_fill buf pos size entropyOk rand).1 =
          Except.error "Could not get random bytes." →
      pos + size < 2 ^ 32 ∧ pos + size ≤ buf.length) := by
  constructor
  · intro hbig
    unfold random_fill
    have hbit : (buf.length.testBit 31 || pos.testBit 31 || size.testBit 31) = true := by
      rcases hbig with hb | hb | hb
      · simp [(testBit31_eq_true_iff buf.length hlen).2 hb]
      · simp [(testBit31_eq_true_iff pos hpos).2 hb]
      · simp [(testBit31_eq_true_iff size hsize).2 hb]
    rw [if_pos hbit]
  · intro hreach
    unfold random_fill at hreach
    by_cases hbit : (buf.length.testBit 31 || pos.testBit 31 || size.testBit 31) = true
    · rw [if_pos hbit] at hreach
      rcases hreach with hr | hr <;> exact absurd hr (by simp)
    · have hp : pos < 2 ^ 31 := by
        rcases Nat.lt_or_ge pos (2 ^ 31) with hh | hh
        · exact hh
        · exact absurd hbit (by simp [(testBit31_eq_true_iff pos hpos).2 hh])
      have hs : size < 2 ^ 31 := by
        rcases Nat.lt_or_ge size (2 ^ 31) with hh | hh
        · exact hh
        · exact absurd hbit (by simp [(testBit31_eq_true_iff size hsize).2 hh])
      have hmod : (pos + size) % 2 ^ 32 = pos + size := Nat.mod_eq_of_lt (by omega)
      rw [if_neg hbit, hmod] at hreach
      by_cases hrange : buf.length < pos + size
      · rw [if_pos (by simpa using hrange)] at hreach
        rcases hreach with hr | hr <;> exact absurd hr (by simp)
      · exact ⟨by omega, by omega⟩

/-- Witness for C9: a pos of 2^31 is rejected as "Invalid range.", and a
completed in-range call satisfies the bound. -/
theorem random_fill_range_safety_witness :
    (random_fill [1] 2147483648 0 true (fun _ => 0)).1 = Except.error "Invalid range." ∧
    (1 + 0 < 2 ^ 32 ∧ 1 + 0 ≤ ([1] : List Nat).length) :=
  ⟨(random_fill_range_safety [1] 2147483648 0 true (fun _ => 0)
      (by decide) (by decide) (by decide)).1 (Or.inr (Or.inl (by decide))),
   (random_fill_range_safety [1] 1 0 true (fun _ => 0)
      (by decide) (by decide) (by decide)).2 (Or.inl (by rfl))⟩

/-- C10, counterexample: a call whose key and IV are both of the wrong
length fails with "Bad key size.", not "Bad IV size.", so the claim that a
16-byte-violating IV always yields the "Bad IV size." error is false. -/
theorem cipher_iv_error_counterexample :
    ([] : List Nat).length ≠ 16 ∧
    (encipher_binding (fun _ _ _ => none) [] [] [] true).1 = Except.error "Bad key size." ∧
    (decipher_binding (fun _ _ _ => none) [] [] [] true).1 = Except.error "Bad key size." ∧
    ("Bad key size." : String) ≠ "Bad IV size." := by
  refine ⟨by decide, rfl, rfl, by decide⟩

/-- C10, amended: encipher and decipher fail with "Bad key size." whenever
the key buffer is not exactly 32 bytes, and — when the key length is 32 —
with "Bad IV size." whenever the IV buffer is not exactly 16 bytes; in both
cases no output buffer is allocated and the cipher never runs. -/
theorem cipher_size_checks_before_alloc
    (cipher : List Nat → List Nat → List Nat → Option (List Nat))
    (data key iv : List Nat) (aOk : Bool) :
    (key.length ≠ 32 →
      encipher_binding cipher data key iv aOk = (Except.error "Bad key size.", []) ∧
      decipher_binding cipher data key iv aOk = (Except.error "Bad key size.", [])) ∧
    (key.length = 32 → iv.length ≠ 16 →
      encipher_binding cipher data key iv aOk = (Except.error "Bad IV size.", []) ∧
      decipher_binding cipher data key iv aOk = (Except.error "Bad IV size.", [])) := by
  constructor
  · intro hk
    simp [encipher_binding, decipher_binding, hk]
  · intro hk hiv
    simp [encipher_binding, decipher_binding, hk, hiv]

/-- Witness for C10 with a wrong-size key and, separately, a correct key
with a wrong-size IV. -/
theorem cipher_size_checks_before_alloc_witness :
    (([0] : List Nat).length ≠ 32 ∧
      (encipher_binding (fun _ _ _ => none) [] [0] [] true =
          (Except.error "Bad key size.", []) ∧
        decipher_binding (fun _ _ _ => none) [] [0] [] true =
          (Except.error "Bad key size.", []))) ∧
    ((List.replicate 32 7).length = 32 ∧ ([0] : List Nat).length ≠ 16 ∧
      (encipher_binding (fun _ _ _ => none) [] (List.replicate 32 7) [0] true =
          (Except.error "Bad IV size.", []) ∧
        decipher_binding (fun _ _ _ => none) [] (List.replicate 32 7) [0] true =
          (Except.error "Bad IV size.", []))) :=
  ⟨⟨by decide,
    (cipher_size_checks_before_alloc (fun _ _ _ => none) [] [0] [] true).1 (by decide)⟩,
   ⟨by decide, by decide,
    (cipher_size_checks_before_alloc (fun _ _ _ => none) [] (List.replicate 32 7) [0]
        true).2 (by decide) (by decide)⟩⟩

set_option maxRecDepth 1000000 in
set_option maxHeartbeats 16000000 in
/-- Validation of the modelled scrypt engine against the first RFC 7914
test vector: scrypt of the empty password and empty salt with N = 16,
r = 1, p = 1, keylen = 64. -/
theorem scryptRFC_vector1 :
    scryptRFC [] [] 16 1 1 64 =
      [119, 214, 87, 98, 56, 101, 123, 32, 59, 25, 202, 66, 193, 138, 4, 151,
       241, 107, 72, 68, 227, 7, 74, 232, 223, 223, 250, 63, 237, 226, 20, 66,
       252, 208, 6, 157, 237, 9, 72, 248, 50, 106, 117, 58, 15, 200, 31, 23,
       232, 211, 224, 251, 46, 13, 54, 40, 207, 53, 226, 12, 56, 209, 137, 6] := by
  rfl

end Bcrypto
